import Mathlib

/-!
Shallow embedding of `qpages.py`, a Quasar page/route generator:
pure string and line-list models of `to_kebab_case`, `create_page`,
`add_route` and the interactive driver `main`.
-/

namespace QPages

/-- Whitespace characters stripped by Python `str.strip()` / `str.rstrip()`
(ASCII subset; all inputs in this development are ASCII). -/
def isPySpace (c : Char) : Bool :=
  c = ' ' || c = '\t' || c = '\n' || c = '\r' || c = '\x0b' || c = '\x0c'

/-- Python `str.rstrip()` on a character list: drop trailing whitespace. -/
def pyRstripList (l : List Char) : List Char :=
  (l.reverse.dropWhile isPySpace).reverse

/-- Python `str.rstrip()`. -/
def pyRstrip (s : String) : String :=
  ⟨pyRstripList s.data⟩

/-- Python `str.strip()`: drop leading and trailing whitespace. -/
def pyStrip (s : String) : String :=
  ⟨pyRstripList (s.data.dropWhile isPySpace)⟩

/-- Python `s.endswith(',')`: the last character is a comma. -/
def endsWithComma (s : String) : Bool :=
  s.data.getLast? = some ','

/-- Decides whether `pat` occurs at the head of `s`. -/
def headMatch : List Char → List Char → Bool
  | [], _ => true
  | _ :: _, [] => false
  | p :: ps, c :: cs => p = c && headMatch ps cs

/-- Decides whether `pat` occurs as a contiguous sublist of `s`
(Python `pat in s`). -/
def hasSubList (pat : List Char) : List Char → Bool
  | [] => pat.isEmpty
  | c :: cs => headMatch pat (c :: cs) || hasSubList pat cs

/-- Python `pat in line` on strings. -/
def strContainsSub (line pat : String) : Bool :=
  hasSubList pat.data line.data

/-- Index of the first line at position `≥ n` (counting from `n`) satisfying
`p`; models `next((i for i, line in enumerate(content[n:], start=n) if p), None)`
when applied to `content.drop n`. -/
def findFromIdx (p : String → Bool) : List String → Nat → Option Nat
  | [], _ => none
  | l :: ls, n => if p l then some n else findFromIdx p ls (n + 1)

/-- First index `≥ start` of a line of `content` containing `pat`. -/
def findMarker (content : List String) (start : Nat) (pat : String) : Option Nat :=
  findFromIdx (fun line => strContainsSub line pat) (content.drop start) start

/-- ASCII uppercase letter, the character class `[A-Z]` of the regex in
`to_kebab_case`. -/
def isAsciiUpper (c : Char) : Bool :=
  65 ≤ c.toNat && c.toNat ≤ 90

/-- Python `str.lower()` restricted to ASCII (all inputs here are ASCII). -/
def pyLowerChar (c : Char) : Char :=
  if isAsciiUpper c then Char.ofNat (c.toNat + 32) else c

/-- The substitution step of `re.sub(r'(?<!^)(?=[A-Z])', '-', s)`: insert a
hyphen before every ASCII uppercase letter that is not at position 0. -/
def insertHyph : List Char → List Char
  | [] => []
  | c :: cs => c :: cs.flatMap (fun d => if isAsciiUpper d then ['-', d] else [d])

/-- Source `to_kebab_case`: the regex substitution followed by `.lower()`. -/
def to_kebab_case (s : String) : String :=
  ⟨(insertHyph s.data).map pyLowerChar⟩

/-- Python `f.readlines()` (keepends split at newline characters), on a
character list. -/
def splitKeepNl (cs : List Char) (acc : List Char) : List (List Char) :=
  match cs with
  | [] => if acc.isEmpty then [] else [acc.reverse]
  | c :: rest =>
    if c = '\n' then (acc.reverse ++ [c]) :: splitKeepNl rest []
    else splitKeepNl rest (c :: acc)

/-- Python `f.readlines()` on a string. -/
def pyReadlines (s : String) : List String :=
  (splitKeepNl s.data []).map (fun l => ⟨l⟩)

/-- Concatenation of a list of character lists. -/
def joinL : List (List Char) → List Char
  | [] => []
  | l :: ls => l ++ joinL ls

/-- Python `''.join(content)`: concatenate all lines back into one string. -/
def joinAll (ls : List String) : String :=
  ⟨joinL (ls.map String.data)⟩

/-- The static import line built for a page in `add_route` when
`dynamic` is false: `import <Page> from 'pages/<Page>.vue';` plus newline. -/
def importLine (page_name : String) : String :=
  "import " ++ page_name ++ " from 'pages/" ++ page_name ++ ".vue';\n"

/-- Route entry built in dynamic mode:
a lazy import of `pages/<page_name>.vue` under path `<route_path>`. -/
def routeLineDyn (page_name route_path : String) : String :=
  "\x7b path: '" ++ route_path ++ "', component: () => import('pages/" ++
    page_name ++ ".vue') \x7d,"

/-- Route entry built in static mode: a direct identifier reference. -/
def routeLineStatic (page_name route_path : String) : String :=
  "\x7b path: '" ++ route_path ++ "', component: " ++ page_name ++ " \x7d,"

/-- The `route_lines` list of `add_route`: one entry per zipped
(page name, route path) pair, shaped by the `dynamic` flag. -/
def rawRouteLines (page_names route_paths : List String) (dynamic : Bool) :
    List String :=
  (page_names.zip route_paths).map
    (fun pr => if dynamic then routeLineDyn pr.1 pr.2 else routeLineStatic pr.1 pr.2)

/-- The content of the routing file after the static-mode prepend
`content[:0] = import_lines` (dynamic mode leaves it unchanged). -/
def scannedContent (page_names : List String) (dynamic : Bool)
    (content0 : List String) : List String :=
  if dynamic then content0 else page_names.map importLine ++ content0

/-- The marker located first: a line containing `path: '/'`. -/
def rootMarker : String := "path: '/'"

/-- The marker located second: a line containing `children: [`. -/
def childrenMarker : String := "children: ["

/-- The marker located third: a line containing `]`. -/
def closeMarker : String := "]"

/-- The scanning and splicing phase of `add_route`: find the first line
containing `path: '/'`, from it the first line containing `children: [`,
from that the first line containing `]`; then append a comma to
`content[k-1]` when it does not already end with one (Python index `k-1`
wraps to the last line when `k = 0`), and insert the indented route lines
at position `k`.  When any marker is missing the content is returned
unchanged. -/
def insertRoutes (content : List String) (route_lines : List String) :
    List String :=
  match findMarker content 0 rootMarker with
  | none => content
  | some main_layout_index =>
    match findMarker content main_layout_index childrenMarker with
    | none => content
    | some children_start_index =>
      match findMarker content children_start_index closeMarker with
      | none => content
      | some k =>
        let pidx := if k = 0 then content.length - 1 else k - 1
        let prev := content.getD pidx ""
        let content2 :=
          if endsWithComma (pyStrip prev) then content
          else content.set pidx (pyRstrip prev ++ ",\n")
        content2.take k ++ route_lines.map (fun rl => "      " ++ rl ++ "\n")
          ++ content2.drop k

/-- Source `add_route`, pure part, on the routing file's line list:
build the route lines, prepend import lines in static mode, then scan
and splice. -/
def add_route_content (page_names route_paths : List String) (dynamic : Bool)
    (content0 : List String) : List String :=
  insertRoutes (scannedContent page_names dynamic content0)
    (rawRouteLines page_names route_paths dynamic)

/-- Source `add_route` on the routing file's full text: read the lines,
transform, and join the result back (the file is rewritten with exactly
this text). -/
def add_route_file (page_names route_paths : List String) (dynamic : Bool)
    (text : String) : String :=
  joinAll (add_route_content page_names route_paths dynamic (pyReadlines text))

/-- Source `add_route` including its success result: when the final write
succeeds (`writeOk`), the function returns `True` and the file holds the
spliced text; the `except` branch returns `False`. -/
def add_route_run (page_names route_paths : List String) (dynamic : Bool)
    (text : String) (writeOk : Bool) : Bool × String :=
  if writeOk then (true, add_route_file page_names route_paths dynamic text)
  else (false, text)

/-- The fixed page template of `create_page`: `page_name` is substituted at
the heading and at the component's `name:` field, `page_type` right after
`<script`. -/
def page_template (page_name page_type : String) : String :=
  "<template>\n  <q-page>\n    <q-card>\n      <q-card-section>\n        <div class=\"text-h6\">"
    ++ page_name ++
    "</div>\n      </q-card-section>\n    </q-card>\n  </q-page>\n</template>\n\n<script"
    ++ page_type ++
    ">\nexport default \x7b\n  name: '" ++ page_name ++ "',\n\x7d;\n</script>\n"

/-- A file system as a partial map from paths to file contents. -/
def FSys : Type := String → Option String

/-- The path `pages_dir / f"{page_name}.vue"` that `create_page` writes. -/
def pagePath (pages_dir page_name : String) : String :=
  pages_dir ++ "/" ++ page_name ++ ".vue"

/-- Source `create_page`: render the template and write it to
`pages_dir/<page_name>.vue`, overwriting whatever was there.  `writeOk`
models the environment: when the write raises (directory missing, not
writable, ...), the `except` branch prints an error and returns `False`
with the file system unchanged.  The `dynamic` parameter is accepted and
unused, as in the source. -/
def create_page (page_name page_type : String) (pages_dir : String)
    (dynamic : Bool) (writeOk : Bool) (fs : FSys) : Bool × FSys :=
  if writeOk then
    (true, fun p => if p = pagePath pages_dir page_name
                    then some (page_template page_name page_type) else fs p)
  else (false, fs)

/-- The routes-file name `main` searches for: decided by the (last) script
language. -/
def routesFileName (lang : String) : String :=
  if lang = "ts" then "routes.ts" else "routes.js"

/-- The `page_type` string `main` passes to every `create_page` call. -/
def pageTypeOf (lang : String) : String :=
  if lang = "ts" then " lang='ts'" else ""

/-- The page-creation loop of `main`: create each page with the one
`page_type`, collecting the names of successfully written pages in order.
`writeOk` gives each page's write outcome. -/
def createAll (page_names : List String) (page_type : String)
    (pages_dir : String) (dynamic : Bool) (writeOk : String → Bool)
    (fs : FSys) : List String × FSys :=
  match page_names with
  | [] => ([], fs)
  | n :: ns =>
    let r := create_page n page_type pages_dir dynamic (writeOk n) fs
    let rest := createAll ns page_type pages_dir dynamic writeOk r.2
    (if r.1 then n :: rest.1 else rest.1, rest.2)

/-- One round of answers typed at the prompts of `main`'s input loop,
already normalised the way the source normalises them (`.strip()`, and
`.lower()` where applied). -/
structure LoopRound where
  page_name : String
  route_path : String
  lang : String
  dyn_answer : String
  add_more : String

/-- The source's test `dynamic in ['y', 'yes']`. -/
def parseDynamic (s : String) : Bool :=
  s = "y" || s = "yes"

/-- The source's test `add_more in ['n', 'no']`. -/
def stopLoop (s : String) : Bool :=
  s = "n" || s = "no"

/-- The source's test `lang in ["js", "ts"]`. -/
def validLang (s : String) : Bool :=
  s = "js" || s = "ts"

/-- The interactive loop of `main`: each round defaults a blank route path
to the kebab-cased page name, exits the process on an invalid script
language (`none`), re-assigns `lang` and `dynamic`, appends the page, and
breaks when the user declines more pages.  Running out of rounds (the loop
would block on input) is also `none`.  On success it returns the collected
page names and route paths together with the final values of `lang` and
`dynamic`. -/
def runLoop (rounds : List LoopRound) (page_names route_paths : List String) :
    Option (List String × List String × String × Bool) :=
  match rounds with
  | [] => none
  | r :: rs =>
    let rp := if r.route_path = "" then to_kebab_case r.page_name
              else r.route_path
    if validLang r.lang then
      let dyn := parseDynamic r.dyn_answer
      let pns := page_names ++ [r.page_name]
      let rps := route_paths ++ [rp]
      if stopLoop r.add_more then some (pns, rps, r.lang, dyn)
      else runLoop rs pns rps
    else none

/-- Source `main` after directory discovery: run the input loop, create all
pages with the final `page_type`, then patch the routing file (whose name
the final `lang` decides) once, passing the created pages, the full route
path list and the final `dynamic` flag.  Returns the routes-file name, the
`page_type` used for every page, the patch-call `dynamic` flag, the created
pages (also the success summary), the resulting file system and the
patched routing-file text. -/
def mainRun (rounds : List LoopRound) (pages_dir : String)
    (writeOk : String → Bool) (fs : FSys) (routesText : String) :
    Option (String × String × Bool × List String × FSys × String) :=
  match runLoop rounds [] [] with
  | none => none
  | some (page_names, route_paths, lang, dyn) =>
    let cr := createAll page_names (pageTypeOf lang) pages_dir dyn writeOk fs
    some (routesFileName lang, pageTypeOf lang, dyn, cr.1, cr.2,
      add_route_file cr.1 route_paths dyn routesText)

/-! ### Helper lemmas -/

/-- A search over lines none of which satisfies the predicate finds nothing. -/
theorem findFromIdx_eq_none (p : String → Bool) :
    ∀ (ls : List String) (n : Nat), (∀ l ∈ ls, p l = false) →
      findFromIdx p ls n = none := by
  intro ls
  induction ls with
  | nil => intro n _; rfl
  | cons l ls ih =>
    intro n h
    have hl : p l = false := h l (by simp)
    simp only [findFromIdx, hl, Bool.false_eq_true, if_false]
    exact ih (n + 1) (fun x hx => h x (by simp [hx]))

/-- Concatenation distributes over list append. -/
theorem joinL_append (a b : List (List Char)) :
    joinL (a ++ b) = joinL a ++ joinL b := by
  induction a with
  | nil => rfl
  | cons l ls ih => simp [joinL, ih]

/-- Splitting at newlines loses no characters. -/
theorem joinL_splitKeepNl (cs : List Char) :
    ∀ acc, joinL (splitKeepNl cs acc) = acc.reverse ++ cs := by
  induction cs with
  | nil =>
    intro acc
    by_cases h : acc.isEmpty
    · have : acc = [] := by simpa [List.isEmpty_iff] using h
      simp [splitKeepNl, this, joinL]
    · simp [splitKeepNl, h, joinL]
  | cons c rest ih =>
    intro acc
    by_cases h : c = '\n'
    · subst h
      simp [splitKeepNl, joinL, ih]
    · simp [splitKeepNl, h, ih]

/-- Reading a file's lines and joining them back is the identity
(`''.join(f.readlines())` reproduces the file text). -/
theorem joinAll_pyReadlines (s : String) : joinAll (pyReadlines s) = s := by
  apply String.ext
  show joinL (((splitKeepNl s.data []).map (fun l => (⟨l⟩ : String))).map String.data)
      = s.data
  rw [List.map_map]
  have : ((fun l => (⟨l⟩ : String).data) : List Char → List Char) = id := by
    funext l
    rfl
  rw [show (String.data ∘ fun l => (⟨l⟩ : String)) = id from this, List.map_id]
  simpa using joinL_splitKeepNl s.data []

/-- Joining distributes over appending line lists. -/
theorem joinAll_append (a b : List String) :
    joinAll (a ++ b) = joinAll a ++ joinAll b := by
  apply String.ext
  show joinL ((a ++ b).map String.data) = (joinAll a ++ joinAll b).data
  rw [String.data_append, List.map_append, joinL_append]
  rfl

/-- With no page names, the static-mode prepend is a no-op. -/
theorem scannedContent_nil (dynamic : Bool) (content0 : List String) :
    scannedContent [] dynamic content0 = content0 := by
  cases dynamic <;> simp [scannedContent]

/-- The indented-and-terminated route line has exactly the documented shape. -/
def specEntryLine (dynamic : Bool) (page_name route_path : String) : String :=
  "      \x7b path: '" ++ route_path ++ "', component: " ++
    (if dynamic then ("() => import('pages/" ++ page_name ++ ".vue')")
     else page_name) ++ " \x7d,\n"

/-- The line spliced into the children array equals the documented shape:
six spaces, `{ path: '<route>', component: <identifier-or-lazy-import> },`,
newline. -/
theorem entry_shape (dynamic : Bool) (page_name route_path : String) :
    "      " ++ (if dynamic then routeLineDyn page_name route_path
                 else routeLineStatic page_name route_path) ++ "\n"
      = specEntryLine dynamic page_name route_path := by
  cases dynamic <;>
    simp only [routeLineDyn, routeLineStatic, specEntryLine, if_true, if_false,
      Bool.false_eq_true, ite_true, ite_false] <;>
    apply String.ext <;>
    simp only [String.data_append, List.append_assoc] <;>
    rfl

/-- The inserted route lines, as `add_route` builds them, written with
`specEntryLine`. -/
theorem rawRouteLines_indent (page_names route_paths : List String)
    (dynamic : Bool) :
    (rawRouteLines page_names route_paths dynamic).map
        (fun rl => "      " ++ rl ++ "\n")
      = (page_names.zip route_paths).map
          (fun pr => specEntryLine dynamic pr.1 pr.2) := by
  unfold rawRouteLines
  rw [List.map_map]
  apply List.map_congr_left
  intro pr _
  show "      " ++ (if dynamic then routeLineDyn pr.1 pr.2
                    else routeLineStatic pr.1 pr.2) ++ "\n"
      = specEntryLine dynamic pr.1 pr.2
  exact entry_shape dynamic pr.1 pr.2

/-! ### C8, C9: the name formatter -/

/-- C8: `to_kebab_case` inserts a hyphen before every ASCII uppercase letter
that is not the first character and then lowercases the whole string (it is
a total Lean function, hence pure with no failure mode), and it maps
`FooBarBaz` to `foo-bar-baz`, `foo` to `foo`, the empty string to itself,
and `UserProfile` to `user-profile`. -/
theorem c8_to_kebab_case :
    (∀ s : String,
       to_kebab_case s = String.mk ((insertHyph s.data).map pyLowerChar))
    ∧ to_kebab_case ("FooBarBaz") = "foo-bar-baz"
    ∧ to_kebab_case ("foo") = "foo"
    ∧ to_kebab_case ("") = ""
    ∧ to_kebab_case ("UserProfile") = "user-profile" :=
  ⟨fun _ => rfl, by decide, by decide, by decide, by decide⟩

/-- A string is in kebab form when it holds no ASCII uppercase letter. -/
def kebabForm (s : String) : Prop :=
  ∀ c ∈ s.data, isAsciiUpper c = false

instance (s : String) : Decidable (kebabForm s) := by
  unfold kebabForm
  infer_instance

/-- Lowercasing a character that is not ASCII uppercase is the identity. -/
theorem pyLowerChar_eq_self {c : Char} (h : isAsciiUpper c = false) :
    pyLowerChar c = c := by
  simp [pyLowerChar, h]

/-- The hyphen-insertion tail map is the identity on uppercase-free lists. -/
theorem kebab_tail_fix (cs : List Char)
    (h : ∀ c ∈ cs, isAsciiUpper c = false) :
    (cs.flatMap (fun d => if isAsciiUpper d then ['-', d] else [d])).map
        pyLowerChar = cs := by
  induction cs with
  | nil => rfl
  | cons d ds ih =>
    have hd : isAsciiUpper d = false := h d (by simp)
    simp only [List.flatMap_cons, List.map_append, hd, Bool.false_eq_true,
      if_false, List.map_cons, List.map_nil]
    rw [pyLowerChar_eq_self hd, ih (fun c hc => h c (by simp [hc]))]
    rfl

/-- `to_kebab_case` fixes every string already in kebab form. -/
theorem to_kebab_case_fix {s : String} (h : kebabForm s) :
    to_kebab_case s = s := by
  cases s with
  | mk l =>
    cases l with
    | nil => rfl
    | cons c cs =>
      show String.mk ((insertHyph (c :: cs)).map pyLowerChar) = String.mk (c :: cs)
      have hc : isAsciiUpper c = false := h c (by simp)
      simp only [insertHyph, List.map_cons]
      rw [pyLowerChar_eq_self hc, kebab_tail_fix cs (fun x hx => h x (by simp [hx]))]

/-- C9: on every input already in kebab form, applying `to_kebab_case`
twice yields the same result as applying it once. -/
theorem c9_idempotent_on_kebab (s : String) (h : kebabForm s) :
    to_kebab_case (to_kebab_case s) = to_kebab_case s := by
  simp only [to_kebab_case_fix h]

/-- Witness for C9 at the concrete kebab-form input `foo-bar`. -/
theorem c9_idempotent_on_kebab_witness :
    kebabForm ("foo-bar")
    ∧ to_kebab_case (to_kebab_case ("foo-bar")) = to_kebab_case ("foo-bar") :=
  ⟨by decide, c9_idempotent_on_kebab ("foo-bar") (by decide)⟩

/-! ### C6, C7: the page writer -/

/-- Template text before the first `page_name` substitution (the heading). -/
def tplA : String :=
  "<template>\n  <q-page>\n    <q-card>\n      <q-card-section>\n        <div class=\"text-h6\">"

/-- Template text between the heading and the script tag. -/
def tplB : String :=
  "</div>\n      </q-card-section>\n    </q-card>\n  </q-page>\n</template>\n\n"

/-- The script tag carrying the language annotation `page_type`. -/
def scriptTag (page_type : String) : String :=
  "<script" ++ page_type ++ ">"

/-- Template text between the script tag and the `name:` field. -/
def tplC : String :=
  "\nexport default \x7b\n  name: '"

/-- Template text after the second `page_name` substitution. -/
def tplD : String :=
  "',\n\x7d;\n</script>\n"

/-- Number of positions of `s` at which `pat` occurs as a substring. -/
def occurAtCount (pat : List Char) : List Char → Nat
  | [] => if pat.isEmpty then 1 else 0
  | c :: cs => (if headMatch pat (c :: cs) then 1 else 0) + occurAtCount pat cs

/-- Number of occurrences of `pat` in `s`. -/
def countOccur (s pat : String) : Nat :=
  occurAtCount pat.data s.data

/-- An empty file system, used by concrete witnesses. -/
def emptyFS : FSys := fun _ => none

set_option maxRecDepth 4096 in
/-- C6: with the `page_type` string `main` derives from the chosen script
language, a successful `create_page` reports success and stores at
`pages_dir/<name>.vue` — overwriting whatever any prior file system held
there — the fixed template, which embeds the page name at exactly the two
substitution points (heading and declared `name:` field) and whose script
tag is `<script lang='ts'>` exactly for the typed variant and the bare
`<script>` otherwise; in the sample instance the page name occurs exactly
twice in the rendered text. -/
theorem c6_create_page_template (page_name pages_dir : String)
    (ts dynamic : Bool) (fs : FSys) :
    (create_page page_name (pageTypeOf (if ts then ("ts") else ("js")))
        pages_dir dynamic true fs).1 = true
    ∧ (create_page page_name (pageTypeOf (if ts then ("ts") else ("js")))
        pages_dir dynamic true fs).2 (pagePath pages_dir page_name)
      = some (page_template page_name (pageTypeOf (if ts then ("ts") else ("js"))))
    ∧ page_template page_name (pageTypeOf (if ts then ("ts") else ("js")))
      = tplA ++ page_name ++ tplB
        ++ scriptTag (pageTypeOf (if ts then ("ts") else ("js")))
        ++ tplC ++ page_name ++ tplD
    ∧ scriptTag (pageTypeOf (if ts then ("ts") else ("js")))
      = (if ts then ("<script lang='ts'>") else ("<script>"))
    ∧ countOccur (page_template ("Settings") (pageTypeOf ("ts"))) ("Settings")
      = 2 := by
  refine ⟨rfl, ?_, ?_, ?_, by decide⟩
  · simp [create_page]
  · cases ts <;>
      (apply String.ext
       simp only [page_template, tplA, tplB, tplC, tplD, scriptTag, pageTypeOf,
         String.data_append, List.append_assoc, ite_true, ite_false]
       rfl)
  · cases ts <;> rfl

/-- C7, part on `createAll`: the created-pages list is the filter of the
page names by their write outcome. -/
theorem createAll_fst (page_names : List String) (page_type pages_dir : String)
    (dynamic : Bool) (writeOk : String → Bool) :
    ∀ fs : FSys,
      (createAll page_names page_type pages_dir dynamic writeOk fs).1
        = page_names.filter (fun n => writeOk n) := by
  induction page_names with
  | nil => intro fs; rfl
  | cons n ns ih =>
    intro fs
    by_cases h : writeOk n = true
    · simp [createAll, create_page, h, List.filter_cons, ih]
    · have h' : writeOk n = false := by simpa using h
      simp [createAll, create_page, h', List.filter_cons, ih]

/-- C7: a page whose write fails makes `create_page` return `False` with
the file system untouched (the exception is caught, not propagated), the
driver excludes that page from the created-pages list — the list passed to
the routing step and printed in the success summary — and it still
processes the remaining pages, every one of which with a successful write
stays in that list. -/
theorem c7_write_failure_excluded (page_names : List String)
    (page_type pages_dir : String) (dynamic : Bool)
    (writeOk : String → Bool) (fs : FSys) (p : String)
    (h : writeOk p = false) :
    create_page p page_type pages_dir dynamic (writeOk p) fs = (false, fs)
    ∧ p ∉ (createAll page_names page_type pages_dir dynamic writeOk fs).1
    ∧ ∀ q ∈ page_names, writeOk q = true →
        q ∈ (createAll page_names page_type pages_dir dynamic writeOk fs).1 := by
  refine ⟨?_, ?_, ?_⟩
  · rw [h]
    rfl
  · rw [createAll_fst]
    simp [List.mem_filter, h]
  · intro q hq hw
    rw [createAll_fst]
    exact List.mem_filter.mpr ⟨hq, hw⟩

/-- Witness for C7: two pages, the write of `Bad` fails while `Good`
succeeds; `Bad` is excluded and `Good` kept. -/
theorem c7_write_failure_excluded_witness :
    create_page ("Bad") ("") ("./src/pages") false
        ((fun n => n != "Bad") ("Bad")) emptyFS = (false, emptyFS)
    ∧ ("Bad") ∉ (createAll (["Good", "Bad"]) ("") ("./src/pages") false
        (fun n => n != "Bad") emptyFS).1
    ∧ ∀ q ∈ (["Good", "Bad"]), (fun n => n != "Bad") q = true →
        q ∈ (createAll (["Good", "Bad"]) ("") ("./src/pages") false
          (fun n => n != "Bad") emptyFS).1 :=
  c7_write_failure_excluded (["Good", "Bad"]) ("") ("./src/pages") false
    (fun n => n != "Bad") emptyFS ("Bad") (by decide)

/-! ### C4: no root marker means no insertion -/

/-- C4: when no line of the (import-prefixed, in static mode) routing-file
lines contains `path: '/'`, a successfully writing `add_route` returns
`True`, and the written text is exactly the original in dynamic mode, and
the prepended import lines followed by the original in static mode. -/
theorem c4_no_root_marker (page_names route_paths : List String)
    (dynamic : Bool) (text : String)
    (h : ∀ line ∈ scannedContent page_names dynamic (pyReadlines text),
           strContainsSub line rootMarker = false) :
    add_route_run page_names route_paths dynamic text true
      = (true, if dynamic then text
               else joinAll (page_names.map importLine) ++ text) := by
  have hnone :
      findMarker (scannedContent page_names dynamic (pyReadlines text)) 0
          rootMarker = none := by
    unfold findMarker
    exact findFromIdx_eq_none _ _ 0 (fun l hl => h l (by simpa using hl))
  have hins :
      add_route_content page_names route_paths dynamic (pyReadlines text)
        = scannedContent page_names dynamic (pyReadlines text) := by
    unfold add_route_content insertRoutes
    rw [hnone]
  unfold add_route_run add_route_file
  rw [if_pos rfl, hins]
  cases dynamic with
  | false =>
    simp only [scannedContent, Bool.false_eq_true, if_false, ite_false]
    rw [joinAll_append, joinAll_pyReadlines]
  | true =>
    simp only [scannedContent, if_true, ite_true]
    rw [joinAll_pyReadlines]

/-- Witness for C4: a routing file without the root marker, patched in
static mode with one page. -/
theorem c4_no_root_marker_witness :
    add_route_run (["Home"]) (["home"]) false ("export default []\n") true
      = (true, if false then ("export default []\n")
               else joinAll ((["Home"]).map importLine) ++ ("export default []\n")) :=
  c4_no_root_marker (["Home"]) (["home"]) false ("export default []\n")
    (by decide)

/-! ### C2, C10: the splice mechanics of the route patcher -/

/-- The content after the comma fix of `add_route` at closing-bracket index
`k ≥ 1`: when the line before the closing-bracket line does not end with a
comma after whitespace trimming, one comma (with the newline restored) is
appended to it. -/
def commaFixed (content : List String) (k : Nat) : List String :=
  if endsWithComma (pyStrip (content.getD (k - 1) "")) then content
  else content.set (k - 1) (pyRstrip (content.getD (k - 1) "") ++ ",\n")

/-- C2: when the three marker scans of `add_route` find, in this order,
line `i` containing `path: '/'`, line `j ≥ i` containing `children: [` and
line `k ≥ j` containing `]`, with `k` not the very first line, the result
is the comma-fixed line list with all generated route-entry lines — each of
the exact shape `{ path: '<route>', component: <identifier-or-lazy-import> },`
with six leading spaces — inserted immediately before the closing-bracket
line. -/
theorem c2_marker_splice (page_names route_paths : List String)
    (dynamic : Bool) (content0 : List String) (i j k : Nat)
    (hi : findMarker (scannedContent page_names dynamic content0) 0 rootMarker
            = some i)
    (hj : findMarker (scannedContent page_names dynamic content0) i
            childrenMarker = some j)
    (hk : findMarker (scannedContent page_names dynamic content0) j
            closeMarker = some k)
    (hk1 : 1 ≤ k) :
    add_route_content page_names route_paths dynamic content0
      = (commaFixed (scannedContent page_names dynamic content0) k).take k
        ++ (page_names.zip route_paths).map
            (fun pr => specEntryLine dynamic pr.1 pr.2)
        ++ (commaFixed (scannedContent page_names dynamic content0) k).drop k := by
  have hk0 : k ≠ 0 := by omega
  unfold add_route_content insertRoutes
  simp only [hi, hj, hk, if_neg hk0, rawRouteLines_indent, commaFixed]

/-- Witness for C2: one dynamic page spliced into a file whose empty
children array spans two lines (so the `children: [` line receives the
missing comma). -/
theorem c2_marker_splice_witness :
    add_route_content (["Home"]) (["/home"]) true
        (["const routes = [\n", "  \x7b\n", "    path: '/',\n",
          "    children: [\n", "    ]\n", "  \x7d\n", "]\n"])
      = (commaFixed (scannedContent (["Home"]) true
            (["const routes = [\n", "  \x7b\n", "    path: '/',\n",
              "    children: [\n", "    ]\n", "  \x7d\n", "]\n"])) 4).take 4
        ++ ((["Home"]).zip (["/home"])).map
            (fun pr => specEntryLine true pr.1 pr.2)
        ++ (commaFixed (scannedContent (["Home"]) true
            (["const routes = [\n", "  \x7b\n", "    path: '/',\n",
              "    children: [\n", "    ]\n", "  \x7d\n", "]\n"])) 4).drop 4 :=
  c2_marker_splice (["Home"]) (["/home"]) true
    (["const routes = [\n", "  \x7b\n", "    path: '/',\n",
      "    children: [\n", "    ]\n", "  \x7d\n", "]\n"]) 2 3 4
    (by decide) (by decide) (by decide) (by decide)

/-- C10: with empty page and route lists but all three markers present at
indices `i ≤ j ≤ k` with `k ≥ 1`, and the line before the closing-bracket
line not ending in a comma, `add_route` still modifies the file: that line
gets a comma appended even though no route is inserted. -/
theorem c10_empty_lists_still_modify (dynamic : Bool)
    (content0 : List String) (i j k : Nat)
    (hi : findMarker content0 0 rootMarker = some i)
    (hj : findMarker content0 i childrenMarker = some j)
    (hk : findMarker content0 j closeMarker = some k)
    (hk1 : 1 ≤ k)
    (hcomma : endsWithComma (pyStrip (content0.getD (k - 1) "")) = false) :
    add_route_content [] [] dynamic content0
      = content0.set (k - 1) (pyRstrip (content0.getD (k - 1) "") ++ ",\n") := by
  have hk0 : k ≠ 0 := by omega
  have hsc : scannedContent [] dynamic content0 = content0 :=
    scannedContent_nil dynamic content0
  unfold add_route_content insertRoutes
  rw [hsc]
  simp only [hi, hj, hk, if_neg hk0, hcomma, Bool.false_eq_true, if_false,
    rawRouteLines, List.zip_nil_left, List.map_nil, List.nil_append,
    List.append_nil, List.take_append_drop]

/-- Witness for C10: the two-line empty children array gets a stray comma
appended to its opening line although no page was added. -/
theorem c10_empty_lists_still_modify_witness :
    add_route_content [] [] true
        (["const routes = [\n", "  \x7b\n", "    path: '/',\n",
          "    children: [\n", "    ]\n", "  \x7d\n", "]\n"])
      = (["const routes = [\n", "  \x7b\n", "    path: '/',\n",
          "    children: [\n", "    ]\n", "  \x7d\n", "]\n"]).set 3
          (pyRstrip ((["const routes = [\n", "  \x7b\n", "    path: '/',\n",
            "    children: [\n", "    ]\n", "  \x7d\n", "]\n"]).getD 3 "")
            ++ ",\n") :=
  c10_empty_lists_still_modify true
    (["const routes = [\n", "  \x7b\n", "    path: '/',\n",
      "    children: [\n", "    ]\n", "  \x7d\n", "]\n"]) 2 3 4
    (by decide) (by decide) (by decide) (by decide) (by decide)

/-! ### C1: one dynamic page against a single-line empty children array -/

/-- A routing file whose root entry has its empty children array written as
`children: []` on one line. -/
def c1Input : String :=
  "const routes = [\n  \x7b\n    path: '/',\n    component: MainLayout,\n    children: []\n  \x7d\n]\n"

/-- What the code actually produces on `c1Input`: the entry is inserted
immediately before the `children: []` line, outside the still-empty array,
because the closing-bracket scan already matches the `children: []` line
itself. -/
def c1Patched : String :=
  "const routes = [\n  \x7b\n    path: '/',\n    component: MainLayout,\n      \x7b path: '/home', component: () => import('pages/Home.vue') \x7d,\n    children: []\n  \x7d\n]\n"

/-- Whether some line holding the lazy-import entry for `Home` lies strictly
between a line containing `children: [` and a later line containing `]` —
the minimal requirement for "a children array containing the new entry". -/
def entryInsideChildren (lines : List String) : Bool :=
  (List.range lines.length).any (fun j =>
    (List.range lines.length).any (fun b =>
      (List.range lines.length).any (fun k =>
        decide (j < b) && decide (b < k)
        && strContainsSub (lines.getD j "") childrenMarker
        && strContainsSub (lines.getD b "") ("import('pages/Home.vue')")
        && strContainsSub (lines.getD k "") closeMarker)))

/-- C1 is false on the code: adding page `Home` with route `/home` in
dynamic mode to a file whose root entry has `children: []` spliced on one
line does produce the lazy-import entry somewhere, but the children array
stays the literal empty `children: []` and no line with the entry lies
between a `children: [` line and a later `]` line. -/
theorem c1_counterexample :
    entryInsideChildren
        (pyReadlines (add_route_file (["Home"]) (["/home"]) true c1Input))
      = false
    ∧ strContainsSub (add_route_file (["Home"]) (["/home"]) true c1Input)
        ("import('pages/Home.vue')") = true
    ∧ strContainsSub (add_route_file (["Home"]) (["/home"]) true c1Input)
        ("children: []") = true := by
  refine ⟨by decide, by decide, by decide⟩

/-- C1 amended: on that file, `add_route` with one page `Home` and route
`/home` in dynamic mode yields the route-entry line referencing the
lazy import of `pages/Home.vue` with path `/home` inserted immediately
before the `children: []` line (hence outside the still-empty array), and
the rest of the file byte-identical apart from that insertion. -/
theorem c1_amended_insertion_before_children :
    add_route_file (["Home"]) (["/home"]) true c1Input = c1Patched := by
  decide

/-! ### C3: only the last loop iteration's language and mode matter -/

/-- When the interactive loop returns, it stopped at some round `k`: every
earlier round answered "more pages", and the returned `lang` and `dynamic`
are exactly round `k`'s, while the page names accumulate across all rounds
up to `k`. -/
theorem runLoop_last (rounds : List LoopRound) :
    ∀ (pns0 rps0 pns rps : List String) (lang : String) (dyn : Bool),
      runLoop rounds pns0 rps0 = some (pns, rps, lang, dyn) →
      ∃ (k : Nat) (hk : k < rounds.length),
        stopLoop ((rounds.get ⟨k, hk⟩).add_more) = true
        ∧ (∀ (m : Nat) (hm : m < k),
            stopLoop ((rounds.get ⟨m, Nat.lt_trans hm hk⟩).add_more) = false)
        ∧ lang = (rounds.get ⟨k, hk⟩).lang
        ∧ dyn = parseDynamic ((rounds.get ⟨k, hk⟩).dyn_answer)
        ∧ pns = pns0 ++ ((rounds.take (k + 1)).map LoopRound.page_name) := by
  induction rounds with
  | nil =>
    intro pns0 rps0 pns rps lang dyn h
    simp [runLoop] at h
  | cons r rs ih =>
    intro pns0 rps0 pns rps lang dyn h
    unfold runLoop at h
    by_cases hv : validLang r.lang = true
    · rw [if_pos hv] at h
      by_cases hs : stopLoop r.add_more = true
      · rw [if_pos hs] at h
        simp only [Option.some.injEq, Prod.mk.injEq] at h
        obtain ⟨h1, _, h3, h4⟩ := h
        refine ⟨0, by simp, hs, by omega, h3.symm, h4.symm, ?_⟩
        simpa using h1.symm
      · rw [if_neg hs] at h
        obtain ⟨k, hk, g1, g2, g3, g4, g5⟩ := ih _ _ _ _ _ _ h
        refine ⟨k + 1, by simpa using Nat.succ_lt_succ hk, g1, ?_, g3, g4, ?_⟩
        · intro m hm
          cases m with
          | zero => simpa using hs
          | succ m' => exact g2 m' (by omega)
        · rw [g5]
          simp [List.take_succ_cons]
    · rw [if_neg hv] at h
      cases h

/-- Distinct page names write to distinct paths. -/
theorem pagePath_inj (pages_dir : String) {n q : String}
    (h : pagePath pages_dir n = pagePath pages_dir q) : n = q := by
  unfold pagePath at h
  have hd := congrArg String.data h
  simp only [String.data_append, List.append_assoc] at hd
  exact String.ext
    (List.append_cancel_right (List.append_cancel_left (List.append_cancel_left hd)))

/-- Pages whose write succeeds never touch paths other than their own. -/
theorem createAll_untouched (page_names : List String)
    (page_type pages_dir : String) (dynamic : Bool) (writeOk : String → Bool) :
    ∀ (fs : FSys) (p : String),
      (∀ q ∈ page_names, writeOk q = true → pagePath pages_dir q ≠ p) →
      (createAll page_names page_type pages_dir dynamic writeOk fs).2 p = fs p := by
  induction page_names with
  | nil => intro fs p _; rfl
  | cons n ns ih =>
    intro fs p h
    have step :
        (createAll (n :: ns) page_type pages_dir dynamic writeOk fs).2
          = (createAll ns page_type pages_dir dynamic writeOk
              ((create_page n page_type pages_dir dynamic (writeOk n) fs).2)).2 := by
      simp [createAll]
    rw [step, ih _ p (fun q hq hw => h q (by simp [hq]) hw)]
    by_cases hw : writeOk n = true
    · have hp : pagePath pages_dir n ≠ p := h n (by simp) hw
      simp [create_page, hw, Ne.symm hp]
    · have hw' : writeOk n = false := by simpa using hw
      simp [create_page, hw']

/-- Every page in the created list ends up on disk holding the template
rendered with the single `page_type` of the run. -/
theorem createAll_written (page_names : List String)
    (page_type pages_dir : String) (dynamic : Bool) (writeOk : String → Bool) :
    ∀ (fs : FSys) (n : String),
      n ∈ (createAll page_names page_type pages_dir dynamic writeOk fs).1 →
      (createAll page_names page_type pages_dir dynamic writeOk fs).2
          (pagePath pages_dir n)
        = some (page_template n page_type) := by
  induction page_names with
  | nil =>
    intro fs n hn
    simp [createAll] at hn
  | cons m ms ih =>
    intro fs n hn
    have step2 :
        (createAll (m :: ms) page_type pages_dir dynamic writeOk fs).2
          = (createAll ms page_type pages_dir dynamic writeOk
              ((create_page m page_type pages_dir dynamic (writeOk m) fs).2)).2 := by
      simp [createAll]
    rw [createAll_fst] at hn
    by_cases hmem :
        n ∈ (createAll ms page_type pages_dir dynamic writeOk
              ((create_page m page_type pages_dir dynamic (writeOk m) fs).2)).1
    · rw [step2]
      exact ih _ n hmem
    · rw [createAll_fst] at hmem
      have hnm : n = m ∧ writeOk m = true := by
        rw [List.filter_cons] at hn
        by_cases hwm : writeOk m = true
        · rw [if_pos hwm] at hn
          rcases List.mem_cons.mp hn with h' | h'
          · exact ⟨h', hwm⟩
          · exact absurd (List.mem_filter.mp h') (by simpa [List.mem_filter] using hmem)
        · rw [if_neg hwm] at hn
          exact absurd (List.mem_filter.mp hn) (by simpa [List.mem_filter] using hmem)
      obtain ⟨rfl, hwm⟩ := hnm
      rw [step2]
      have huntouched :
          ∀ q ∈ ms, writeOk q = true →
            pagePath pages_dir q ≠ pagePath pages_dir n := by
        intro q hq hwq heq
        have hqn : q = n := pagePath_inj pages_dir heq
        subst hqn
        exact hmem (List.mem_filter.mpr ⟨hq, hwq⟩)
      rw [createAll_untouched ms page_type pages_dir dynamic writeOk _ _
        huntouched]
      simp [create_page, hwm]

/-- C3: whenever `main` completes, there is a final loop round `k` (the
first to answer "no more pages"); the routes-file name searched for, the
script-tag annotation every created page is generated with, and the
`dynamic` flag of the single patch call are all computed from round `k`'s
`lang` and dynamic-loading answers alone, whatever earlier rounds entered;
moreover every created page's file holds the template rendered with that
one annotation. -/
theorem c3_last_round_governs (rounds : List LoopRound)
    (pages_dir : String) (writeOk : String → Bool) (fs : FSys)
    (routesText rf pt : String) (dyn : Bool) (created : List String)
    (fs2 : FSys) (patched : String)
    (h : mainRun rounds pages_dir writeOk fs routesText
           = some (rf, pt, dyn, created, fs2, patched)) :
    ∃ (k : Nat) (hk : k < rounds.length),
      stopLoop ((rounds.get ⟨k, hk⟩).add_more) = true
      ∧ (∀ (m : Nat) (hm : m < k),
          stopLoop ((rounds.get ⟨m, Nat.lt_trans hm hk⟩).add_more) = false)
      ∧ rf = routesFileName ((rounds.get ⟨k, hk⟩).lang)
      ∧ pt = pageTypeOf ((rounds.get ⟨k, hk⟩).lang)
      ∧ dyn = parseDynamic ((rounds.get ⟨k, hk⟩).dyn_answer)
      ∧ (∀ n ∈ created, fs2 (pagePath pages_dir n) = some (page_template n pt)) := by
  unfold mainRun at h
  cases hrl : runLoop rounds [] [] with
  | none => rw [hrl] at h; cases h
  | some q =>
    obtain ⟨pns, rps, lang, dyn'⟩ := q
    rw [hrl] at h
    simp only [Option.some.injEq, Prod.mk.injEq] at h
    obtain ⟨hrf, hpt, hdyn, hcreated, hfs2, _⟩ := h
    obtain ⟨k, hk, g1, g2, g3, g4, _⟩ := runLoop_last rounds [] [] pns rps lang dyn' hrl
    refine ⟨k, hk, g1, g2, ?_, ?_, ?_, ?_⟩
    · rw [← hrf, g3]
    · rw [← hpt, g3]
    · rw [← hdyn, g4]
    · intro n hn
      rw [← hfs2, ← hpt]
      exact createAll_written pns (pageTypeOf lang) pages_dir dyn' writeOk fs n
        (by rw [← hcreated] at hn; exact hn)

/-- A concrete two-round run: the first round answers `js` and dynamic
loading `y`, the second (final) round answers `ts` and `n`. -/
def c3Rounds : List LoopRound :=
  [⟨"Home", "", "js", "y", "y"⟩, ⟨"About", "/about", "ts", "n", "n"⟩]

/-- Every page write succeeds in the concrete run. -/
def c3W : String → Bool := fun _ => true

/-- Concrete pages directory of the witness run. -/
def c3Dir : String := "./src/pages"

/-- Concrete routing-file text of the witness run. -/
def c3Text : String := "x\n"

/-- The file system produced by the witness run. -/
def c3FS2 : FSys :=
  (createAll (["Home", "About"]) (pageTypeOf ("ts")) c3Dir false c3W emptyFS).2

/-- The patched routing text produced by the witness run. -/
def c3Patched : String :=
  add_route_file (["Home", "About"]) (["home", "/about"]) false c3Text

/-- Witness for C3: in the two-round run, everything is governed by the
final round's `ts` and `n` answers, not the first round's `js` and `y`. -/
theorem c3_last_round_governs_witness :
    ∃ (k : Nat) (hk : k < c3Rounds.length),
      stopLoop ((c3Rounds.get ⟨k, hk⟩).add_more) = true
      ∧ (∀ (m : Nat) (hm : m < k),
          stopLoop ((c3Rounds.get ⟨m, Nat.lt_trans hm hk⟩).add_more) = false)
      ∧ ("routes.ts") = routesFileName ((c3Rounds.get ⟨k, hk⟩).lang)
      ∧ (" lang='ts'") = pageTypeOf ((c3Rounds.get ⟨k, hk⟩).lang)
      ∧ false = parseDynamic ((c3Rounds.get ⟨k, hk⟩).dyn_answer)
      ∧ (∀ n ∈ (["Home", "About"]), c3FS2 (pagePath c3Dir n)
            = some (page_template n (" lang='ts'"))) :=
  c3_last_round_governs c3Rounds c3Dir c3W emptyFS c3Text ("routes.ts")
    (" lang='ts'") false (["Home", "About"]) c3FS2 c3Patched (by rfl)

/-! ### C5: static mode prepends imports and references identifiers -/

/-- C5: in static mode, `add_route` is exactly the marker-scanning splice
run on the file with one import line per page — `import <Page> from
'pages/<Page>.vue';` — prepended in submission order, so those import
lines sit at the very top of the scanned line sequence, and every
generated entry references the page identifier directly with no
lazy-import wrapper. -/
theorem c5_static_mode_imports (page_names route_paths : List String)
    (content0 : List String) :
    add_route_content page_names route_paths false content0
      = insertRoutes (page_names.map importLine ++ content0)
          ((page_names.zip route_paths).map (fun pr => routeLineStatic pr.1 pr.2))
    ∧ (scannedContent page_names false content0).take page_names.length
        = page_names.map importLine
    ∧ (∀ pn rp, routeLineStatic pn rp
        = "\x7b path: '" ++ rp ++ "', component: " ++ pn ++ " \x7d,")
    ∧ (∀ pn, importLine pn
        = "import " ++ pn ++ " from 'pages/" ++ pn ++ ".vue';\n") := by
  refine ⟨?_, ?_, fun pn rp => rfl, fun pn => rfl⟩
  · simp [add_route_content, scannedContent, rawRouteLines]
  · simp only [scannedContent, Bool.false_eq_true, if_false, ite_false]
    rw [show page_names.length = (page_names.map importLine).length by simp,
      List.take_left]

end QPages

